import Mathlib

/-!
Shallow embedding of the data engine in src/fault_tolerant_redis.py
(class FaultTolerantRedisClone).  Python dicts that are used purely as
finite maps (self.data_store, self.expiry_times, self.sorted_sets) are
embedded as association lists with dict-style helpers; the wall clock
(time.time()) is passed explicitly as a natural-number parameter to every
operation that reads it; each method returns its result together with the
updated state.
-/

deriving instance DecidableEq for Except

/-- Python d.get(k): the value bound to k in the association list, if any. -/
def dget (d : List (String × α)) (k : String) : Option α :=
  match d with
  | [] => none
  | p :: rest => if p.1 == k then some p.2 else dget rest k

/-- Python d[k] = v: replace the binding in place if present, else append. -/
def dset (d : List (String × α)) (k : String) (v : α) : List (String × α) :=
  match d with
  | [] => [(k, v)]
  | p :: rest => if p.1 == k then (k, v) :: rest else p :: dset rest k v

/-- Python d.pop(k, None): remove the binding of k, if present.  Dict keys
are unique, so on every state the engine builds this removes at most one
binding; removing every binding of k is its total extension to arbitrary
association lists. -/
def dpop (d : List (String × α)) (k : String) : List (String × α) :=
  d.filter (fun p => !(p.1 == k))

/-- Python k in d. -/
def dmem (d : List (String × α)) (k : String) : Bool :=
  (dget d k).isSome

/-- Value stored in the primary keyspace self.data_store: a string, a list
(built by the list operations) or a hash (built by hset); payloads are the
strings that arrive through the transport layer. -/
inductive Value where
  | str (s : String)
  | list (l : List String)
  | hash (h : List (String × String))
deriving DecidableEq, Repr

/-- Mirrors isinstance(v, str) in append. -/
def Value.isStr : Value → Bool
  | Value.str _ => true
  | _ => false

/-- Contents written by json.dump in _save_snapshot: the triple of
data_store, expiry_times and sorted_sets. -/
structure SnapshotData where
  data : List (String × Value)
  expiry : List (String × Nat)
  sorted_sets : List (String × List (Int × String))
deriving DecidableEq, Repr

/-- State of a FaultTolerantRedisClone instance: the three dictionaries of
__init__, plus the contents of the file at self.snapshot_file (modelled
in-state so that _save_snapshot is observable). -/
structure EngineState where
  data_store : List (String × Value)
  expiry_times : List (String × Nat)
  sorted_sets : List (String × List (Int × String))
  snapshotContents : Option SnapshotData
deriving DecidableEq, Repr

/-- Engine state of a fresh instance with no snapshot file on disk. -/
def EngineState.empty : EngineState := ⟨[], [], [], none⟩

namespace FaultTolerantRedisClone

/-- Embeds _save_snapshot: serializes data_store, expiry_times and
sorted_sets and writes them to the snapshot file. -/
def save_snapshot (s : EngineState) : EngineState :=
  { s with snapshotContents := some ⟨s.data_store, s.expiry_times, s.sorted_sets⟩ }

/-- Embeds set(key, value, ex): stores the value; with ex it sets
expiry_times[key] = time.time() + ex, otherwise it pops any existing TTL. -/
def set (s : EngineState) (now : Nat) (key : String) (value : Value)
    (ex : Option Nat) : EngineState × String :=
  let data := dset s.data_store key value
  match ex with
  | some e => ({ s with data_store := data,
                        expiry_times := dset s.expiry_times key (now + e) }, "OK")
  | none => ({ s with data_store := data,
                      expiry_times := dpop s.expiry_times key }, "OK")

/-- Embeds get(key): if key is in expiry_times and time.time() is at or past
the deadline, pop the key from both maps and return None; otherwise return
data_store.get(key). -/
def get (s : EngineState) (now : Nat) (key : String) :
    EngineState × Option Value :=
  match dget s.expiry_times key with
  | some deadline =>
      if deadline ≤ now then
        ({ s with data_store := dpop s.data_store key,
                  expiry_times := dpop s.expiry_times key }, none)
      else (s, dget s.data_store key)
  | none => (s, dget s.data_store key)

/-- Embeds delete(key): pops the key from data_store and expiry_times and
returns the previous value, if any. -/
def delete (s : EngineState) (key : String) : EngineState × Option Value :=
  (⟨dpop s.data_store key, dpop s.expiry_times key,
    s.sorted_sets, s.snapshotContents⟩, dget s.data_store key)

/-- Embeds exists(key): present in data_store and, when it has a deadline at
or before time.time(), the key is popped from both maps and False returned. -/
def «exists» (s : EngineState) (now : Nat) (key : String) :
    EngineState × Bool :=
  if dmem s.data_store key then
    match dget s.expiry_times key with
    | some deadline =>
        if deadline ≤ now then
          ({ s with data_store := dpop s.data_store key,
                    expiry_times := dpop s.expiry_times key }, false)
        else (s, true)
    | none => (s, true)
  else (s, false)

/-- Embeds flushall(): clears data_store and expiry_times, then calls
_save_snapshot on the cleared state and returns \"OK\". -/
def flushall (s : EngineState) : EngineState × String :=
  let cleared := { s with data_store := ([] : List (String × Value)),
                          expiry_times := ([] : List (String × Nat)) }
  (save_snapshot cleared, "OK")

/-- Result of append(key, value): the new length on success, or the warning
message the method returns instead of raising. -/
inductive AppendResult where
  | len (n : Nat)
  | errorMsg (msg : String)
deriving DecidableEq, Repr

/-- Embeds append(key, value): when the key holds a string, concatenates and
returns the new length; otherwise returns a descriptive message and leaves
the state untouched. -/
def append (s : EngineState) (key : String) (value : String) :
    EngineState × AppendResult :=
  match dget s.data_store key with
  | some v =>
      match v with
      | Value.str old =>
          ({ s with data_store := dset s.data_store key (Value.str (old ++ value)) },
           AppendResult.len (old ++ value).length)
      | _ => (s, AppendResult.errorMsg ("Value for key " ++ key ++ " is not a string"))
  | none => (s, AppendResult.errorMsg ("Key " ++ key ++ " does not exist"))

/-- Embeds hdelall(hash_key): pops the key from data_store when present and
reports whether it existed.  Note the method never touches expiry_times. -/
def hdelall (s : EngineState) (hash_key : String) : EngineState × Bool :=
  if dmem s.data_store hash_key then
    ({ s with data_store := dpop s.data_store hash_key }, true)
  else (s, false)

/-- Embeds delpush(key): pops the key from data_store unconditionally and
returns \"Success\".  Note the method never touches expiry_times. -/
def delpush (s : EngineState) (key : String) : EngineState × String :=
  ({ s with data_store := dpop s.data_store key }, "Success")

end FaultTolerantRedisClone

/-- Dangling-expiry invariant of the spec: every key with an entry in
expiry_times is also present in data_store. -/
def danglingFree (s : EngineState) : Bool :=
  s.expiry_times.all (fun p => dmem s.data_store p.1)

/-- Normalizes one Python slice index: a negative index counts from the end
of the list. -/
def pyIndex (len : Nat) (i : Int) : Int :=
  if i < 0 then i + len else i

/-- Embeds the Python slice l[start:stop]: indices are normalized and then
clamped to [0, len]; an empty range yields the empty list. -/
def pySlice (l : List α) (start stop : Int) : List α :=
  let n : Int := l.length
  let a := max 0 (min n (pyIndex l.length start))
  let b := max 0 (min n (pyIndex l.length stop))
  (l.take b.toNat).drop a.toNat

/-- Lexicographic code-point order on character lists, the order Python uses
to compare strings. -/
def charListLt : List Char → List Char → Bool
  | [], [] => false
  | [], _ :: _ => true
  | _ :: _, [] => false
  | c :: cs, d :: ds => if c < d then true else if d < c then false else charListLt cs ds

/-- Non-strict string comparison by code points. -/
def strLe (a b : String) : Bool := !(charListLt b.data a.data)

/-- Comparison used by Python list.sort() on (score, value) tuples:
lexicographic on the pair. -/
def pairLe (a b : Int × String) : Bool :=
  if a.1 < b.1 then true
  else if b.1 < a.1 then false
  else strLe a.2 b.2

/-- Inserts a pair into an already sorted list of pairs. -/
def insertPair (p : Int × String) : List (Int × String) → List (Int × String)
  | [] => [p]
  | q :: rest => if pairLe p q then p :: q :: rest else q :: insertPair p rest

/-- Embeds self.sorted_sets[zset_key].sort(): sorts the (score, value)
pairs lexicographically. -/
def sortPairs : List (Int × String) → List (Int × String)
  | [] => []
  | p :: rest => insertPair p (sortPairs rest)

namespace FaultTolerantRedisClone

/-- Embeds zset(zset_key, score, value): create the sequence if absent,
append the (score, value) pair, sort, and return 1. -/
def zset (s : EngineState) (zset_key : String) (score : Int)
    (value : String) : EngineState × Nat :=
  let cur := (dget s.sorted_sets zset_key).getD []
  ({ s with sorted_sets := dset s.sorted_sets zset_key
              (sortPairs (cur ++ [(score, value)])) }, 1)

/-- Embeds zrange(zset_key, start, end): the values of the slice
zset[start:end+1] of the sorted sequence, or [] when the key is absent. -/
def zrange (s : EngineState) (zset_key : String) (start e : Int) :
    List String :=
  match dget s.sorted_sets zset_key with
  | some zs => (pySlice zs start (e + 1)).map (fun p => p.2)
  | none => []

/-- Embeds zrevrange(zset_key, start, end): when the key exists the body
executes stop = int(stop), reading the local variable stop before it is
ever assigned (the parameter is named end), so Python raises
UnboundLocalError, which the except clause logs and re-raises; when the key
is absent the method returns []. -/
def zrevrange (s : EngineState) (zset_key : String) (start e : Int) :
    Except String (List String) :=
  if dmem s.sorted_sets zset_key then
    Except.error "UnboundLocalError: local variable stop referenced before assignment"
  else
    Except.ok []

/-- Embeds the loop of lpush: for value in reversed(values):
lst.insert(0, value). -/
def lpushInsert (values : List String) (lst : List String) : List String :=
  values.reverse.foldl (fun l v => v :: l) lst

/-- Embeds lpush(key, *values): _get_list creates an empty list for an
absent key and raises TypeError when the key holds a non-list; then the
values are inserted at the head and the new length returned. -/
def lpush (s : EngineState) (key : String) (values : List String) :
    Except String (EngineState × Nat) :=
  match dget s.data_store key with
  | none =>
      let lst := lpushInsert values []
      Except.ok ({ s with data_store := dset s.data_store key (Value.list lst) },
                 lst.length)
  | some (Value.list l) =>
      let lst := lpushInsert values l
      Except.ok ({ s with data_store := dset s.data_store key (Value.list lst) },
                 lst.length)
  | some _ => Except.error ("TypeError: Key " ++ key ++ " does not hold a list.")

end FaultTolerantRedisClone

/-!
Model for hgetall aliasing (claim about copy isolation).  Python dict
objects live on a heap and self.data_store maps a hash key to a reference
to its dict object; hset mutates the referenced object in place, and
hgetall returns the reference itself (return hash_data - no copy).  The
heap is a list of dict objects addressed by position.
-/

namespace PyHash

/-- Address of a dict object on the Python heap. -/
abbrev Addr := Nat

/-- A Python dict used as a hash: field name to value. -/
abbrev PyDict := List (String × String)

/-- Heap read: the dict object at an address. -/
def heapGet (h : List PyDict) (a : Addr) : PyDict :=
  (h.get? a).getD []

/-- Heap write: replace the dict object at an address. -/
def heapSet (h : List PyDict) (a : Addr) (d : PyDict) : List PyDict :=
  h.set a d

/-- Engine state restricted to hash storage, with object identity made
explicit: data_store maps keys to references into the heap of dict
objects. -/
structure HashEngineState where
  heap : List PyDict
  data_store : List (String × Addr)
deriving DecidableEq, Repr

/-- Embeds hset(hash_key, field, value): on an absent key,
self.data_store[hash_key] = \x7b\x7d allocates a fresh dict object; then
self.data_store[hash_key][field] = value mutates that object in place. -/
def hset (s : HashEngineState) (hash_key field value : String) :
    HashEngineState × String :=
  match dget s.data_store hash_key with
  | none =>
      let a := s.heap.length
      let heap1 := s.heap ++ [[]]
      let heap2 := heapSet heap1 a (dset (heapGet heap1 a) field value)
      (⟨heap2, dset s.data_store hash_key a⟩, "OK")
  | some a =>
      (⟨heapSet s.heap a (dset (heapGet s.heap a) field value), s.data_store⟩, "OK")

/-- Embeds hget(hash_key, field): reads through the stored reference; an
absent key reads from the fresh empty default dict. -/
def hget (s : HashEngineState) (hash_key field : String) : Option String :=
  match dget s.data_store hash_key with
  | some a => dget (heapGet s.heap a) field
  | none => none

/-- What hgetall(hash_key) hands to the caller: the stored dict object
itself when the key is present (return hash_data returns the live
reference, not a copy), or a fresh empty dict otherwise. -/
inductive HGetAllResult where
  | live (a : Addr)
  | fresh
deriving DecidableEq, Repr

/-- Embeds hgetall(hash_key). -/
def hgetall (s : HashEngineState) (hash_key : String) : HGetAllResult :=
  match dget s.data_store hash_key with
  | some a => HGetAllResult.live a
  | none => HGetAllResult.fresh

/-- A caller mutating the mapping hgetall returned: writing a field through
the returned reference updates the heap object; a fresh dict is unreachable
from the store so mutating it changes nothing inside the engine. -/
def callerSetField (s : HashEngineState) (r : HGetAllResult)
    (field value : String) : HashEngineState :=
  match r with
  | HGetAllResult.live a =>
      { s with heap := heapSet s.heap a (dset (heapGet s.heap a) field value) }
  | HGetAllResult.fresh => s

end PyHash

/-!
Model for snapshot-file atomicity.  _save_snapshot writes the destination
with open(self.snapshot_file, "w") followed by json.dump: opening with mode
"w" truncates the destination at once, and the dump then writes the new
content; there is no temporary file and no rename.  A crash or failure is
an interruption after a prefix of these steps; the file contents after each
prefix are computed below.
-/

/-- One destination-file action performed by _save_snapshot. -/
inductive FsStep where
  | openTruncateDest
  | writeDest (content : String)
deriving DecidableEq, Repr

/-- The sequence of destination-file actions of _save_snapshot for a given
serialized state: truncate-on-open, then write the serialization. -/
def saveSnapshotFileSteps (serialized : String) : List FsStep :=
  [FsStep.openTruncateDest, FsStep.writeDest serialized]

/-- Contents of the destination file after running a list of steps over its
prior contents. -/
def fileAfter (prior : String) (steps : List FsStep) : String :=
  steps.foldl (fun f step =>
    match step with
    | FsStep.openTruncateDest => ""
    | FsStep.writeDest c => f ++ c) prior

/-- The atomicity property the spec demands: at every point strictly before
the full step sequence has run, the destination still holds its prior
contents. -/
def destUnchangedBeforeComplete (prior serialized : String) : Prop :=
  ∀ n, n < (saveSnapshotFileSteps serialized).length →
    fileAfter prior ((saveSnapshotFileSteps serialized).take n) = prior

/-!
Model for the locking discipline.  __init__ creates two locks: self.lock
(an RLock) and self.lock_list; each method body is wrapped in exactly one
with-statement naming one of them, and accessesDataStore records whether
the method body reads or writes self.data_store.
-/

/-- Which of the two locks created in __init__ a method acquires. -/
inductive LockUsed where
  | mainLock
  | listLock
deriving DecidableEq, Repr

/-- The public operations of the engine plus the two background-task bodies. -/
inductive EngineOp where
  | setOp | getOp | deleteOp | keysOp | flushallOp | appendOp
  | expireOp | ttlOp | persistOp
  | hsetOp | hgetOp | hdelOp | hgetallOp | hdelallOp
  | zsetOp | zrangeOp | zrevrangeOp | zdelvalueOp | zdelkeyOp | zrankOp | zgetallOp
  | lpushOp | rpushOp | lpopOp | rpopOp | lrangeOp | llenOp | delpushOp
  | existsOp | cleanupSweepOp | saveSnapshotOp
deriving DecidableEq, Repr

/-- The lock each method body acquires, read off its with-statement: every
list operation acquires self.lock_list, every other operation acquires
self.lock. -/
def guardOf : EngineOp → LockUsed
  | EngineOp.lpushOp => LockUsed.listLock
  | EngineOp.rpushOp => LockUsed.listLock
  | EngineOp.lpopOp => LockUsed.listLock
  | EngineOp.rpopOp => LockUsed.listLock
  | EngineOp.lrangeOp => LockUsed.listLock
  | EngineOp.llenOp => LockUsed.listLock
  | EngineOp.delpushOp => LockUsed.listLock
  | _ => LockUsed.mainLock

/-- Whether the method body reads or writes self.data_store: true for all
keyspace, hash and list operations (the list operations go through
_get_list, which stores lists in self.data_store) and the two background
tasks; false for the sorted-set operations, which only touch
self.sorted_sets. -/
def accessesDataStore : EngineOp → Bool
  | EngineOp.zsetOp => false
  | EngineOp.zrangeOp => false
  | EngineOp.zrevrangeOp => false
  | EngineOp.zdelvalueOp => false
  | EngineOp.zdelkeyOp => false
  | EngineOp.zrankOp => false
  | EngineOp.zgetallOp => false
  | _ => true

/-! Helper lemmas about the dict operations. -/

theorem dget_dset_self (d : List (String × α)) (k : String) (v : α) :
    dget (dset d k v) k = some v := by
  induction d with
  | nil => simp [dset, dget]
  | cons p rest ih =>
      by_cases h : p.1 == k
      · simp [dset, h, dget]
      · simp [dset, h, dget, ih]

theorem dget_dpop_self (d : List (String × α)) (k : String) :
    dget (dpop d k) k = none := by
  induction d with
  | nil => simp [dpop, dget]
  | cons p rest ih =>
      by_cases h : p.1 == k
      · simpa [dpop, List.filter_cons, h] using ih
      · simpa [dpop, List.filter_cons, h, dget] using ih

theorem lpushInsert_eq_append (values lst : List String) :
    FaultTolerantRedisClone.lpushInsert values lst = values ++ lst := by
  induction values with
  | nil => rfl
  | cons v vs ih =>
      unfold FaultTolerantRedisClone.lpushInsert at *
      rw [List.reverse_cons, List.foldl_append]
      simp [ih]

/-- C1: every operation preserves the dangling-expiry invariant — refuted on
the code.  After set("k", "v", ex=100) the invariant holds, but hdelall("k")
(and likewise delpush("k")) pops the key from data_store while leaving its
expiry_times entry behind, so the expiry index references a key absent from
the primary keyspace. -/
theorem hdelall_delpush_leave_dangling_expiry :
    (FaultTolerantRedisClone.set EngineState.empty 0 "k" (Value.str "v") (some 100)).1 =
      ⟨[("k", Value.str "v")], [("k", 100)], [], none⟩ ∧
    danglingFree ⟨[("k", Value.str "v")], [("k", 100)], [], none⟩ = true ∧
    FaultTolerantRedisClone.hdelall ⟨[("k", Value.str "v")], [("k", 100)], [], none⟩ "k" =
      (⟨[], [("k", 100)], [], none⟩, true) ∧
    FaultTolerantRedisClone.delpush ⟨[("k", Value.str "v")], [("k", 100)], [], none⟩ "k" =
      (⟨[], [("k", 100)], [], none⟩, "Success") ∧
    danglingFree ⟨[], [("k", 100)], [], none⟩ = false ∧
    dget ([("k", 100)] : List (String × Nat)) "k" = some 100 ∧
    dget ([] : List (String × Value)) "k" = none := by
  decide

/-- C2: hgetall returns an independent copy of the field mapping — refuted
on the code.  hgetall returns the live dict object stored for the key, so a
caller writing field "f" := "2" through the returned mapping makes the
subsequent hget(h, f) observe "2" in place of the stored "1". -/
theorem hgetall_returns_live_mapping :
    PyHash.hset ⟨[], []⟩ "h" "f" "1" = (⟨[[("f", "1")]], [("h", 0)]⟩, "OK") ∧
    PyHash.hget ⟨[[("f", "1")]], [("h", 0)]⟩ "h" "f" = some "1" ∧
    PyHash.hgetall ⟨[[("f", "1")]], [("h", 0)]⟩ "h" = PyHash.HGetAllResult.live 0 ∧
    PyHash.callerSetField ⟨[[("f", "1")]], [("h", 0)]⟩ (PyHash.HGetAllResult.live 0) "f" "2" =
      ⟨[[("f", "2")]], [("h", 0)]⟩ ∧
    PyHash.hget ⟨[[("f", "2")]], [("h", 0)]⟩ "h" "f" = some "2" := by
  decide

/-- C4: zrevrange returns, without raising, the members in descending score
order over the inclusive clamped range — refuted on the code.  With the
sorted set s = zadd(100, alice), zadd(20, bob), zadd(30, carol), the call
zrevrange(s, 0, 2) raises UnboundLocalError (the body reads the unassigned
local stop; the except clause re-raises) instead of returning
["alice", "carol", "bob"]; the ascending zrange on the same data does
return ["bob", "carol", "alice"], confirming the stored sequence. -/
theorem zrevrange_raises_on_existing_key :
    (FaultTolerantRedisClone.zset (FaultTolerantRedisClone.zset
        (FaultTolerantRedisClone.zset EngineState.empty "s" 100 "alice").1
        "s" 20 "bob").1 "s" 30 "carol").1 =
      ⟨[], [], [("s", [(20, "bob"), (30, "carol"), (100, "alice")])], none⟩ ∧
    FaultTolerantRedisClone.zrevrange
        ⟨[], [], [("s", [(20, "bob"), (30, "carol"), (100, "alice")])], none⟩ "s" 0 2 =
      Except.error "UnboundLocalError: local variable stop referenced before assignment" ∧
    FaultTolerantRedisClone.zrevrange
        ⟨[], [], [("s", [(20, "bob"), (30, "carol"), (100, "alice")])], none⟩ "s" 0 2 ≠
      Except.ok ["alice", "carol", "bob"] ∧
    FaultTolerantRedisClone.zrange
        ⟨[], [], [("s", [(20, "bob"), (30, "carol"), (100, "alice")])], none⟩ "s" 0 2 =
      ["bob", "carol", "alice"] := by
  decide

/-- C5: a failed or interrupted save leaves the prior on-disk snapshot
unchanged — refuted on the code.  _save_snapshot opens the destination with
mode "w", which truncates it at once, before json.dump writes anything: an
interruption after the open leaves the destination empty, destroying the
prior snapshot. -/
theorem save_snapshot_truncates_destination_first :
    fileAfter "old-snapshot" ((saveSnapshotFileSteps "new-snapshot").take 1) = "" ∧
    ¬ destUnchangedBeforeComplete "old-snapshot" "new-snapshot" := by
  refine ⟨rfl, fun h => ?_⟩
  have h1 := h 1 (by decide)
  exact absurd h1 (by decide)

/-- C6: every operation runs under the one shared exclusive guard — refuted
on the code.  The seven list operations acquire self.lock_list while every
other operation acquires self.lock, yet lpush and set both read and write
self.data_store, so two independent locks guard the same underlying
storage. -/
theorem list_ops_use_second_lock :
    guardOf EngineOp.lpushOp = LockUsed.listLock ∧
    guardOf EngineOp.setOp = LockUsed.mainLock ∧
    accessesDataStore EngineOp.lpushOp = true ∧
    accessesDataStore EngineOp.setOp = true ∧
    ¬ (∀ op : EngineOp, guardOf op = LockUsed.mainLock) := by
  refine ⟨rfl, rfl, rfl, rfl, fun h => ?_⟩
  exact absurd (h EngineOp.lpushOp) (by decide)

/-- C3: lazy expiry in get and exists.  For every key present in data_store
whose expiry deadline is at or before the current time, get returns None and
exists returns False, and each removes both the value and the expiry entry
in the state it returns. -/
theorem lazy_expiry_get_exists (s : EngineState) (now : Nat) (key : String)
    (d : Nat) (hmem : dmem s.data_store key = true)
    (hd : dget s.expiry_times key = some d) (hle : d ≤ now) :
    (FaultTolerantRedisClone.get s now key).2 = none ∧
    dget (FaultTolerantRedisClone.get s now key).1.data_store key = none ∧
    dget (FaultTolerantRedisClone.get s now key).1.expiry_times key = none ∧
    (FaultTolerantRedisClone.«exists» s now key).2 = false ∧
    dget (FaultTolerantRedisClone.«exists» s now key).1.data_store key = none ∧
    dget (FaultTolerantRedisClone.«exists» s now key).1.expiry_times key = none := by
  unfold FaultTolerantRedisClone.get FaultTolerantRedisClone.«exists»
  simp [hmem, hd, hle, dget_dpop_self]

/-- Witness for C3: the key k holds "v" with deadline 5 and the clock reads
10, so get returns None and exists returns False with both entries gone. -/
theorem lazy_expiry_get_exists_witness :
    (FaultTolerantRedisClone.get ⟨[("k", Value.str "v")], [("k", 5)], [], none⟩ 10 "k").2 = none ∧
    dget (FaultTolerantRedisClone.get ⟨[("k", Value.str "v")], [("k", 5)], [], none⟩ 10 "k").1.data_store "k" = none ∧
    dget (FaultTolerantRedisClone.get ⟨[("k", Value.str "v")], [("k", 5)], [], none⟩ 10 "k").1.expiry_times "k" = none ∧
    (FaultTolerantRedisClone.«exists» ⟨[("k", Value.str "v")], [("k", 5)], [], none⟩ 10 "k").2 = false ∧
    dget (FaultTolerantRedisClone.«exists» ⟨[("k", Value.str "v")], [("k", 5)], [], none⟩ 10 "k").1.data_store "k" = none ∧
    dget (FaultTolerantRedisClone.«exists» ⟨[("k", Value.str "v")], [("k", 5)], [], none⟩ 10 "k").1.expiry_times "k" = none :=
  lazy_expiry_get_exists ⟨[("k", Value.str "v")], [("k", 5)], [], none⟩ 10 "k" 5
    (by decide) (by decide) (by decide)

/-- C7: lpush onto a key holding list L prepends the pushed values in their
given left-to-right order and returns the new length. -/
theorem lpush_prepends_in_order (s : EngineState) (key : String)
    (L values : List String)
    (h : dget s.data_store key = some (Value.list L)) :
    FaultTolerantRedisClone.lpush s key values =
      Except.ok ({ s with data_store := dset s.data_store key (Value.list (values ++ L)) },
                 values.length + L.length) := by
  unfold FaultTolerantRedisClone.lpush
  simp [h, lpushInsert_eq_append]

/-- Witness for C7: lpush of [d, e] onto the stored list [a, b, c] yields
the stored list [d, e, a, b, c] and returns 5. -/
theorem lpush_prepends_in_order_witness :
    FaultTolerantRedisClone.lpush ⟨[("l", Value.list ["a", "b", "c"])], [], [], none⟩ "l" ["d", "e"] =
      Except.ok (⟨[("l", Value.list ["d", "e", "a", "b", "c"])], [], [], none⟩, 5) := by
  rw [lpush_prepends_in_order ⟨[("l", Value.list ["a", "b", "c"])], [], [], none⟩ "l"
    ["a", "b", "c"] ["d", "e"] (by decide)]
  decide

/-- C8: append returns the new length when the key holds a string; on a
non-string value or an absent key it returns a descriptive message without
raising and leaves data_store and expiry_times entirely unchanged (in
particular it never creates the absent key). -/
theorem append_returns_length_or_error (s : EngineState) (key value : String) :
    (∀ old, dget s.data_store key = some (Value.str old) →
      FaultTolerantRedisClone.append s key value =
        ({ s with data_store := dset s.data_store key (Value.str (old ++ value)) },
         FaultTolerantRedisClone.AppendResult.len (old.length + value.length))) ∧
    (∀ v, dget s.data_store key = some v → Value.isStr v = false →
      FaultTolerantRedisClone.append s key value =
        (s, FaultTolerantRedisClone.AppendResult.errorMsg
              ("Value for key " ++ key ++ " is not a string"))) ∧
    (dget s.data_store key = none →
      FaultTolerantRedisClone.append s key value =
        (s, FaultTolerantRedisClone.AppendResult.errorMsg
              ("Key " ++ key ++ " does not exist"))) := by
  refine ⟨fun old h => ?_, fun v h hstr => ?_, fun h => ?_⟩
  · unfold FaultTolerantRedisClone.append
    simp [h]
  · unfold FaultTolerantRedisClone.append
    cases v with
    | str t => simp [Value.isStr] at hstr
    | list l => simp [h]
    | hash m => simp [h]
  · unfold FaultTolerantRedisClone.append
    simp [h]

/-- Witness for C8: appending "ab" to the string key succeeds with length 3;
appending to a list-valued key and to an absent key each return the
descriptive message and leave the state exactly as it was. -/
theorem append_returns_length_or_error_witness :
    (FaultTolerantRedisClone.append ⟨[("k", Value.str "v")], [], [], none⟩ "k" "ab" =
      (⟨[("k", Value.str "vab")], [], [], none⟩,
       FaultTolerantRedisClone.AppendResult.len 3)) ∧
    (FaultTolerantRedisClone.append ⟨[("k", Value.list ["x"])], [("k", 9)], [], none⟩ "k" "ab" =
      (⟨[("k", Value.list ["x"])], [("k", 9)], [], none⟩,
       FaultTolerantRedisClone.AppendResult.errorMsg ("Value for key " ++ "k" ++ " is not a string"))) ∧
    (FaultTolerantRedisClone.append ⟨[], [], [], none⟩ "k" "ab" =
      (⟨[], [], [], none⟩,
       FaultTolerantRedisClone.AppendResult.errorMsg ("Key " ++ "k" ++ " does not exist"))) := by
  refine ⟨?_, ?_, ?_⟩
  · rw [(append_returns_length_or_error ⟨[("k", Value.str "v")], [], [], none⟩ "k" "ab").1 "v" (by decide)]
    decide
  · exact (append_returns_length_or_error ⟨[("k", Value.list ["x"])], [("k", 9)], [], none⟩ "k" "ab").2.1
      (Value.list ["x"]) (by decide) (by decide)
  · exact (append_returns_length_or_error ⟨[], [], [], none⟩ "k" "ab").2.2 (by decide)

/-- C9: for every state, key and value, set(k, v) then get(k) returns
exactly v, and delete(k) then get(k) returns None. -/
theorem set_get_delete_get (s : EngineState) (now now1 now2 : Nat)
    (k : String) (v : Value) :
    (FaultTolerantRedisClone.get (FaultTolerantRedisClone.set s now k v none).1 now1 k).2 = some v ∧
    (FaultTolerantRedisClone.get (FaultTolerantRedisClone.delete s k).1 now2 k).2 = none := by
  constructor
  · unfold FaultTolerantRedisClone.set FaultTolerantRedisClone.get
    simp [dget_dpop_self, dget_dset_self]
  · unfold FaultTolerantRedisClone.delete FaultTolerantRedisClone.get
    simp [dget_dpop_self]

/-- C10: flushall empties data_store and expiry_times, immediately writes a
snapshot of the cleared state, returns "OK", and leaves every sorted-set
key's (score, member) sequence exactly as it was. -/
theorem flushall_clears_and_snapshots (s : EngineState) :
    (FaultTolerantRedisClone.flushall s).1.data_store = [] ∧
    (FaultTolerantRedisClone.flushall s).1.expiry_times = [] ∧
    (FaultTolerantRedisClone.flushall s).1.sorted_sets = s.sorted_sets ∧
    (FaultTolerantRedisClone.flushall s).1.snapshotContents =
      some ⟨[], [], s.sorted_sets⟩ ∧
    (FaultTolerantRedisClone.flushall s).2 = "OK" ∧
    ∀ zkey, dget (FaultTolerantRedisClone.flushall s).1.sorted_sets zkey =
      dget s.sorted_sets zkey := by
  unfold FaultTolerantRedisClone.flushall FaultTolerantRedisClone.save_snapshot
  simp
